import Mathlib

/-!
Shallow embedding of the LPU-output visualizer
(`neurokernel/LPU/utils/visualizer.py`, with the older overlapping
implementation in `utils/visualizer.py` consulted where the two differ).

The embedding keeps the integer/list-level semantics of the Python code:
numpy arrays become `List`s, Python dicts become association lists,
fallible operations return `Except String`, and `None`-able fields become
`Option`.  Plot-type tags keep the numeric codes the source assigns
(0 = quiver, 1 = hsv, 2 = image, 3 = waveform, 4 = raster, 5 = rate,
6 = dome).
-/

namespace Visualizer

/-- Python's `enumerate` starting at `i`: pairs each element with its index. -/
def enumFromN {α : Type} : Nat → List α → List (Nat × α)
  | _, [] => []
  | i, a :: rest => (i, a) :: enumFromN (i + 1) rest

/-- `add_LPU` (visualizer.py:116-118): the `_id_to_data_idx[LPU]` dictionary
`{m: i for i, m in enumerate(sorted(spiking ids))}`, represented as the
association list of (neuron id, data row index) pairs.  Python's `sorted`
(a stable ascending sort) is embedded as `List.insertionSort (· ≤ ·)`. -/
def idToDataIdx (spikingIds : List Int) : List (Int × Nat) :=
  (enumFromN 0 (List.insertionSort (· ≤ ·) spikingIds)).map (fun p => (p.2, p.1))

/-- Association-list lookup, the semantics of reading a Python dict key
(`None`/absence modelled as `none`). -/
def alistLookup : List (Int × Nat) → Int → Option Nat
  | [], _ => none
  | (k, v) :: rest, key => if k = key then some v else alistLookup rest key

/-- `add_LPU` (visualizer.py:136-139): the update of `self._maxt` after one
source is registered with `n` timesteps.  Python tests `if self._maxt:`,
which is falsy both for `None` and for `0`, so a stored bound of `0` is
treated as unset and overwritten. -/
def updateMaxt (m : Option Nat) (n : Nat) : Option Nat :=
  match m with
  | some k => if k ≠ 0 then some (min k n) else some n
  | none => some n

/-- The engine-wide `_maxt` after registering sources whose (post-window)
timestep counts are `counts`, starting from the initial `self._maxt = None`. -/
def registerMaxt (counts : List Nat) : Option Nat :=
  counts.foldl updateMaxt none

/-- Python's built-in `range(start, stop, step)` for a positive `step`
(the only way `run` uses it): the list `start, start+step, …` of all values
below `stop`; its length is `⌈(stop-start)/step⌉`, which in `Nat`
arithmetic (truncated subtraction) is `(stop - start + step - 1) / step`.
Python raises `ValueError` for `step = 0`; the theorems below only use
`1 ≤ step`. -/
def pyRange (start stop step : Nat) : List Nat :=
  (List.range ((stop - start + step - 1) / step)).map (fun k => start + k * step)

/-- `run` (visualizer.py:173-174): the loop values of
`for _ in range(self._update_interval, self._maxt, self._update_interval)`;
one `_update` call is made per element, so the tick reference points are
exactly this list. -/
def runTicks (ui maxt : Nat) : List Nat :=
  pyRange ui maxt ui

/-- `run` (visualizer.py:170-171): `if not self._update_interval:
self._update_interval = self._maxt - 1`.  A configured stride of `0`
models both Python `0` and `None` (both falsy). -/
def effectiveStride (ui maxt : Nat) : Nat :=
  if ui = 0 then maxt - 1 else ui

/-- `run` (visualizer.py:172): `self._t = self._update_interval + 1`, the
time cursor in effect during the first `_update` call. -/
def initialCursor (ui : Nat) : Nat :=
  ui + 1

/-- Python's built-in `range(start, stop, step)` including its argument
check: `range` raises `ValueError` when `step = 0` — the degenerate case
`run` reaches when the defaulted stride `maxt - 1` is zero, i.e.
`maxt = 1`. -/
def pyRangeChecked (start stop step : Nat) : Except String (List Nat) :=
  if step = 0 then .error "ValueError"
  else .ok (pyRange start stop step)

/-- `run` (visualizer.py:170-175) for `maxt ≥ 1`: the stride defaulting
followed by the tick loop — the list of tick reference points the run
performs (one `_update` call per element), or the `ValueError` that
`range` raises when the effective stride is zero.  (`Nat` subtraction
confines the model to `maxt ≥ 1`; for `maxt = 0` Python's `maxt - 1`
would be `-1`.) -/
def runUpdates (ui maxt : Nat) : Except String (List Nat) :=
  pyRangeChecked (effectiveStride ui maxt) maxt (effectiveStride ui maxt)

/-- `_update` (visualizer.py:437-439): the slice
`data[id, max(0, t - update_interval):t]` of a single channel `d`, i.e. the
window of samples appended to a single-channel waveform buffer at cursor
`t` with stride `s`.  `Nat` truncated subtraction `t - s` is exactly
Python's `max(0, t - s)`. -/
def wfWindow (s t : Nat) (d : Nat → Int) : List Int :=
  (List.range (t - (t - s))).map (fun w => d (t - s + w))

/-- `_initialize` (visualizer.py:308-310) plus `run` (visualizer.py:172):
the waveform state after the first draw — the rolling buffer seeded with
the `t = 0` sample, and the cursor `self._t = s + 1`. -/
def wfInit (s : Nat) (d : Nat → Int) : List Int × Nat :=
  ([d 0], s + 1)

/-- `_update` (visualizer.py:437-441, 519): one tick of a single-channel
waveform panel — append the current window to `ydata`, then
`self._t += self._update_interval`. -/
def wfTick (s : Nat) (d : Nat → Int) : List Int × Nat → List Int × Nat
  | (buf, t) => (buf ++ wfWindow s t d, t + s)

/-- The waveform state after `k` ticks. -/
def wfRun (s : Nat) (d : Nat → Int) : Nat → List Int × Nat
  | 0 => wfInit s d
  | k + 1 => wfTick s d (wfRun s d k)

/-- `true` exactly when a fallible computation succeeded. -/
def isOkB {ε α : Type} : Except ε α → Bool
  | .ok _ => true
  | .error _ => false

/-- `_initialize` (visualizer.py:232-251): dispatch of the configured plot
kind string to its numeric tag, with the `assert len(config['ids']) == n`
checks for quiver/hsv/image and the `raise ValueError('Plot type not
supported')` fallback.  A failed `assert` raises `AssertionError`; both
failures abort configuration. -/
def resolveType (kind : String) (numIdGroups : Nat) : Except String Nat :=
  if kind = "quiver" then (if numIdGroups = 2 then .ok 0 else .error "AssertionError")
  else if kind = "hsv" then (if numIdGroups = 2 then .ok 1 else .error "AssertionError")
  else if kind = "image" then (if numIdGroups = 1 then .ok 2 else .error "AssertionError")
  else if kind = "waveform" then .ok 3
  else if kind = "raster" then .ok 4
  else if kind = "rate" then .ok 5
  else if kind = "dome" then .ok 6
  else .error "Plot type not supported"

/-- The plot-kind strings `_initialize` recognizes. -/
def recognizedKinds : List String :=
  ["quiver", "hsv", "image", "waveform", "raster", "rate", "dome"]

/-- Python's `str.startswith`. -/
def pyStartsWith (s p : String) : Bool :=
  p.toList.isPrefixOf s.toList

/-- `_initialize` (visualizer.py:252-256), the kind-inference rule when the
config carries no `'type'` key:

`if str(LPU).startswith('input') and not
self._graph[LPU].node[str(config['ids'][0][0])]['spiking']: type = 2
else: type = 4`.

The node lookup only happens when the name test passes (Python `and`
short-circuits); if the input source has no stored graph, that lookup
raises `KeyError`.  `graph` is the spiking flag per node id of
`self._graph[LPU]` when that entry exists. -/
def defaultType (LPU : String) (graph : Option (Int → Bool)) (firstId : Int) :
    Except String Nat :=
  if pyStartsWith LPU "input" then
    match graph with
    | none => .error "KeyError"
    | some spiking => .ok (if !(spiking firstId) then 2 else 4)
  else .ok 4

/-- The kind-inference rule as the spec states it (§4.2): a panel on an
input source, or on a measured source whose first selected node is not
flagged spiking, defaults to single-channel-image (2); otherwise to
event-raster (4).  Written from the spec's words, to be compared with
`defaultType` above. -/
def specDefaultKind (isInput firstSelectedSpiking : Bool) : Nat :=
  if isInput || !firstSelectedSpiking then 2 else 4

/-- `_initialize` (visualizer.py:264-266): the inferred ceiling of `√n`,
i.e. `int(np.ceil(np.sqrt(num_neurons)))` in exact arithmetic. -/
def ceilSqrt (n : Nat) : Nat :=
  if Nat.sqrt n * Nat.sqrt n = n then Nat.sqrt n else Nat.sqrt n + 1

/-- `_initialize` (visualizer.py:258-266): the shape inferred for a
2-D-reshape panel kind with `n` selected channels and no explicit shape:
`shape[0] = int(np.ceil(np.sqrt(n)))`, then
`shape[1] = int(np.ceil(n / float(shape[0])))`; the ceiling division is
`(n + r - 1) / r` in exact arithmetic. -/
def inferShape (n : Nat) : Nat × Nat :=
  (ceilSqrt n, (n + ceilSqrt n - 1) / ceilSqrt n)

/-- `np.where(slice)[0]` on a 1-D slice: the indices of its nonzero
entries. -/
def nonzeroIndices (l : List Int) : List Nat :=
  (List.range l.length).filter (fun w => l.getD w 0 ≠ 0)

/-- `_update` (visualizer.py:456-457): the vertical marks drawn for raster
row `j` from channel `row` at cursor `t` with stride `s` — one mark at
x-offset `t - time` for each nonzero `time` in the window slice
`row[max(0, t-s):t]` (numpy slicing clamps, hence `drop`/`take`). -/
def rasterMarksRow (j s t : Nat) (row : List Int) : List (Nat × Int) :=
  (nonzeroIndices ((row.drop (t - s)).take (t - (t - s)))).map
    (fun time => (j, (t : Int) - time))

/-- `_update` (visualizer.py:446-457): the event-raster recompute loop over
the enumerated selected ids.  Each id's `_id_to_data_idx` lookup sits in a
`try/except: continue`, so an id absent from the map is skipped; the
subsequent row access `data[idx, …]` is outside the `try` and an
out-of-range row index raises (numpy `IndexError`), aborting the tick. -/
def rasterLoop (m : List (Int × Nat)) (data : List (List Int)) (s t : Nat) :
    List (Nat × Int) → Except String (List (Nat × Int))
  | [] => .ok []
  | (j, id) :: rest =>
    match alistLookup m id with
    | none => rasterLoop m data s t rest
    | some idx =>
      match data[idx]? with
      | none => .error "IndexError"
      | some row =>
        match rasterLoop m data s t rest with
        | .error e => .error e
        | .ok tail => .ok (rasterMarksRow j s t row ++ tail)

/-- One event-raster tick over the selected ids `ids`
(`for j, id in enumerate(config['ids'][0])`). -/
def rasterUpdate (m : List (Int × Nat)) (data : List (List Int)) (s t : Nat)
    (ids : List Int) : Except String (List (Nat × Int)) :=
  rasterLoop m data s t (enumFromN 0 ids)

/-- numpy fancy indexing `data[ids, t]` as used by the image/quiver/hsv
recomputes (`_update`, visualizer.py:461-482): reads row `i`, column `t`
for each `i` in `ids`; any out-of-range index raises `IndexError`, which
nothing catches. -/
def npFancyCol (data : List (List Int)) (ids : List Nat) (t : Nat) :
    Except String (List Int) :=
  match ids with
  | [] => .ok []
  | i :: rest =>
    match data[i]? with
    | none => .error "IndexError"
    | some row =>
      match row[t]? with
      | none => .error "IndexError"
      | some v =>
        match npFancyCol data rest t with
        | .error e => .error e
        | .ok vs => .ok (v :: vs)

/-- A 3-channel, 4-timestep spike matrix (the spec's end-to-end example
source shape), used as concrete data in witnesses. -/
def exSpikes : List (List Int) :=
  [[0, 1, 0, 1], [1, 0, 0, 0], [0, 0, 1, 0]]

/-- Values a plot-config dict can hold: resolved channel-id groups, strings
(titles, kind names), or other scalar options. -/
inductive CVal : Type
  | vIds : List (List Int) → CVal
  | vStr : String → CVal
  | vNum : Int → CVal
  deriving DecidableEq

/-- A Python dict with string keys, as an association list (first binding
wins, as the operations below maintain). -/
def Config : Type := List (String × CVal)

/-- Dict read: `config[k]` / `k in config`. -/
def cLookup : Config → String → Option CVal
  | [], _ => none
  | (k, v) :: rest, key => if k = key then some v else cLookup rest key

/-- `'k' in config`. -/
def cMem (c : Config) (key : String) : Bool :=
  (cLookup c key).isSome

/-- Dict write `config[k] = v`: replaces the binding if the key is present,
appends it otherwise. -/
def cSet : Config → String → CVal → Config
  | [], key, v => [(key, v)]
  | (k, w) :: rest, key, v =>
    if k = key then (k, v) :: rest else (k, w) :: cSet rest key v

/-- Python `s.split('_', 1)[1]` for a string containing `'_'`: everything
after the first underscore. -/
def afterFirstUnderscore (s : String) : String :=
  String.mk ((s.toList.dropWhile (fun c => c ≠ '_')).drop 1)

/-- `add_plot` (visualizer.py:586-612).  `config_dict` is the caller's
dict; the function starts from `config = config_dict.copy()` and performs
every write on the copy.  `numRows` is `self._data[LPU].shape[0]` (used by
the input-source branch) and `nodeNames` lists the `'name'` attribute of
node `id` of `self._graph[LPU]` for `id = 0, 1, …` (used by the
name-resolution branch).  Returns the caller's dict as the call leaves it,
paired with the config object appended to `self._config[LPU]` (which the
trailing title-defaulting step still mutates, hence the title is applied
before returning it). -/
def addPlot (config_dict : Config) (LPU : String) (names : List String)
    (shift : Int) (numRows : Nat) (nodeNames : List String) : Config × Config :=
  let config := config_dict
  let config :=
    if cMem config "ids" then config
    else if pyStartsWith LPU "input" then
      cSet config "ids" (.vIds [(List.range numRows).map Int.ofNat])
    else
      cSet config "ids" (.vIds (names.map (fun nm =>
        (List.range nodeNames.length).filterMap (fun id =>
          if nodeNames.getD id "" = nm then some ((id : Int) - shift) else none))))
  let config :=
    if cMem config "title" then config
    else if names.headD "" ≠ "" then
      cSet config "title" (.vStr (LPU ++ " - " ++ names.headD ""))
    else if pyStartsWith LPU "input_" then
      cSet config "title" (.vStr (afterFirstUnderscore LPU ++ " - " ++ "Input"))
    else
      cSet config "title" (.vStr LPU)
  (config_dict, config)

end Visualizer

namespace Visualizer

/-! ### Helper lemmas -/

theorem enumFromN_snd {α : Type} (i : Nat) (l : List α) :
    (enumFromN i l).map (fun p => p.2) = l := by
  induction l generalizing i with
  | nil => rfl
  | cons a rest ih => simp [enumFromN, ih]

theorem enumFromN_fst {α : Type} (i : Nat) (l : List α) :
    (enumFromN i l).map (fun p => p.1) = List.range' i l.length := by
  induction l generalizing i with
  | nil => rfl
  | cons a rest ih => simp [enumFromN, ih, List.range'_succ]

theorem idToDataIdx_fst (ids : List Int) :
    (idToDataIdx ids).map Prod.fst = List.insertionSort (· ≤ ·) ids := by
  have h := enumFromN_snd 0 (List.insertionSort (· ≤ ·) ids)
  simpa [idToDataIdx, List.map_map, Function.comp_def] using h

theorem idToDataIdx_snd (ids : List Int) :
    (idToDataIdx ids).map Prod.snd = List.range ids.length := by
  have h := enumFromN_fst 0 (List.insertionSort (· ≤ ·) ids)
  simp only [idToDataIdx, List.map_map, Function.comp_def]
  simpa [List.length_insertionSort, List.range_eq_range'] using h

theorem foldl_updateMaxt_pos (cs : List Nat) :
    ∀ k, 0 < k → (∀ c ∈ cs, 0 < c) →
      List.foldl updateMaxt (some k) cs = some (List.foldl min k cs) := by
  induction cs with
  | nil => intro k _ _; rfl
  | cons c rest ih =>
    intro k hk hcs
    have hc : 0 < c := hcs c (List.mem_cons_self _ _)
    have hstep : updateMaxt (some k) c = some (min k c) := by
      simp [updateMaxt, Nat.pos_iff_ne_zero.mp hk]
    simp only [List.foldl_cons, hstep]
    exact ih (min k c) (lt_min hk hc) (fun x hx => hcs x (List.mem_cons_of_mem _ hx))

theorem foldl_min_le_init (cs : List Nat) : ∀ k, List.foldl min k cs ≤ k := by
  induction cs with
  | nil => intro k; exact Nat.le_refl k
  | cons c rest ih =>
    intro k
    exact le_trans (ih (min k c)) (min_le_left _ _)

theorem foldl_min_le_mem (cs : List Nat) : ∀ k c, c ∈ cs → List.foldl min k cs ≤ c := by
  induction cs with
  | nil => intro k c hc; exact absurd hc (List.not_mem_nil c)
  | cons c' rest ih =>
    intro k c hc
    rcases List.mem_cons.mp hc with rfl | hrest
    · exact le_trans (foldl_min_le_init rest (min k c)) (min_le_right _ _)
    · exact ih (min k c') c hrest

theorem foldl_min_mem (cs : List Nat) :
    ∀ k, List.foldl min k cs = k ∨ List.foldl min k cs ∈ cs := by
  induction cs with
  | nil => intro k; exact Or.inl rfl
  | cons c rest ih =>
    intro k
    rcases ih (min k c) with h | h
    · rcases min_choice k c with hm | hm
      · exact Or.inl (by rw [List.foldl_cons, h, hm])
      · exact Or.inr (by rw [List.foldl_cons, h, hm]; exact List.mem_cons_self _ _)
    · exact Or.inr (List.mem_cons_of_mem _ h)

theorem lt_ceilDiv_iff (k d s : Nat) (hs : 1 ≤ s) : k < (d + s - 1) / s ↔ k * s < d := by
  rw [Nat.lt_iff_add_one_le, Nat.le_div_iff_mul_le hs]
  have h : (k + 1) * s = k * s + s := by ring
  rw [h]
  generalize k * s = x
  omega

theorem ceilDiv_shift (s maxt : Nat) (hs : 1 ≤ s) :
    (maxt - s + s - 1) / s = (maxt - 1) / s := by
  rcases Nat.lt_or_ge maxt s with h | h
  · rw [Nat.sub_eq_zero_of_le h.le, Nat.div_eq_of_lt (by omega),
      Nat.div_eq_of_lt (by omega)]
  · congr 1
    omega

theorem runTicks_eq (s maxt : Nat) (hs : 1 ≤ s) :
    runTicks s maxt = (List.range ((maxt - 1) / s)).map (fun k => (k + 1) * s) := by
  rw [runTicks, pyRange, ceilDiv_shift s maxt hs]
  exact List.map_congr_left (fun k _ => by ring)

theorem runTicks_length (s maxt : Nat) (hs : 1 ≤ s) :
    (runTicks s maxt).length = (maxt - 1) / s := by
  rw [runTicks_eq s maxt hs]
  simp

theorem mem_runTicks (s maxt t : Nat) (hs : 1 ≤ s) :
    t ∈ runTicks s maxt ↔ (∃ k, 1 ≤ k ∧ t = k * s) ∧ t < maxt := by
  rw [runTicks_eq s maxt hs]
  simp only [List.mem_map, List.mem_range]
  constructor
  · rintro ⟨k, hk, rfl⟩
    have h1 : k * s < maxt - s := by
      have h := lt_ceilDiv_iff k (maxt - s) s hs
      rw [ceilDiv_shift s maxt hs] at h
      exact h.mp hk
    refine ⟨⟨k + 1, by omega, rfl⟩, ?_⟩
    have h2 : (k + 1) * s = k * s + s := by ring
    rw [h2]
    generalize k * s = x at h1
    omega
  · rintro ⟨⟨k, hk1, rfl⟩, hlt⟩
    refine ⟨k - 1, ?_, ?_⟩
    · rw [← ceilDiv_shift s maxt hs, lt_ceilDiv_iff _ _ _ hs]
      have h2 : k * s = (k - 1) * s + s := by
        have hk : k = (k - 1) + 1 := by omega
        calc k * s = ((k - 1) + 1) * s := by rw [← hk]
          _ = (k - 1) * s + s := by ring
      generalize (k - 1) * s = x at h2 ⊢
      generalize k * s = y at h2 hlt
      omega
    · have hk : k - 1 + 1 = k := by omega
      rw [hk]

/-! ### Claims -/

/-- **C1.** For every measured source, the IndexMap built by `add_LPU` maps
the spiking node identifiers, sorted in strictly ascending order of
identifier value, to consecutive indices `0, 1, 2, …`: the key column of
the association list is a strictly ascending rearrangement of the spiking
ids, and the value column is exactly `0, 1, …, n-1` in order (so index `i`
names row `i` of the data matrix). -/
theorem indexMap_sorted_consecutive (ids : List Int) (h : ids.Nodup) :
    ((idToDataIdx ids).map Prod.fst).Sorted (· < ·) ∧
    List.Perm ((idToDataIdx ids).map Prod.fst) ids ∧
    (idToDataIdx ids).map Prod.snd = List.range ids.length := by
  have hfst := idToDataIdx_fst ids
  have hperm : List.Perm (List.insertionSort (· ≤ ·) ids) ids :=
    List.perm_insertionSort _ _
  refine ⟨?_, ?_, idToDataIdx_snd ids⟩
  · rw [hfst]
    have hsorted : (List.insertionSort (· ≤ ·) ids).Sorted (· ≤ ·) :=
      List.sorted_insertionSort _ _
    have hnd : (List.insertionSort (· ≤ ·) ids).Nodup := hperm.nodup_iff.mpr h
    exact hsorted.lt_of_le hnd
  · rw [hfst]
    exact hperm

/-- Witness for C1 at the spec's example: spiking ids `{5, 2, 9}` produce
the mapping `{2 → 0, 5 → 1, 9 → 2}`. -/
theorem indexMap_sorted_consecutive_witness :
    idToDataIdx [5, 2, 9] = [(2, 0), (5, 1), (9, 2)] ∧
    ((idToDataIdx [5, 2, 9]).map Prod.fst).Sorted (· < ·) ∧
    (idToDataIdx [5, 2, 9]).map Prod.snd = List.range 3 :=
  ⟨by decide, (indexMap_sorted_consecutive [5, 2, 9] (by decide)).1,
    (indexMap_sorted_consecutive [5, 2, 9] (by decide)).2.2⟩

/-- **C2, counterexample.** The claim "after any sequence of registrations
`maxt` equals the minimum timestep count" fails: registering a 0-timestep
source and then a 5-timestep source leaves `maxt = 5`, not the minimum 0,
because `add_LPU` tests `if self._maxt:` and a stored `0` is falsy. -/
theorem maxt_not_min_counterexample :
    registerMaxt [0, 5] = some 5 ∧ ¬(∀ c ∈ ([0, 5] : List Nat), 5 ≤ c) := by
  constructor
  · rfl
  · decide

/-- **C2, amended.** Provided every registered source has at least one
timestep (the code treats a stored `maxt` of `0` as unset and
overwrites it), after any nonempty sequence of `add_LPU` calls the
engine-wide `maxt` equals the minimum of the registered timestep
counts. -/
theorem maxt_min_of_pos_counts (counts : List Nat) (hne : counts ≠ [])
    (hpos : ∀ c ∈ counts, 0 < c) :
    ∃ m, registerMaxt counts = some m ∧ m ∈ counts ∧ ∀ c ∈ counts, m ≤ c := by
  match counts, hne with
  | c :: cs, _ =>
    refine ⟨List.foldl min c cs, ?_, ?_, ?_⟩
    · have h1 : registerMaxt (c :: cs) = List.foldl updateMaxt (some c) cs := rfl
      rw [h1]
      exact foldl_updateMaxt_pos cs c (hpos c (List.mem_cons_self _ _))
        (fun x hx => hpos x (List.mem_cons_of_mem _ hx))
    · rcases foldl_min_mem cs c with h | h
      · rw [h]; exact List.mem_cons_self _ _
      · exact List.mem_cons_of_mem _ h
    · intro c' hc'
      rcases List.mem_cons.mp hc' with rfl | hrest
      · exact foldl_min_le_init cs c'
      · exact foldl_min_le_mem cs c c' hrest

/-- Witness for C2 at the spec's example: timestep counts
`{120, 95, 200}` leave `maxt = 95`, the minimum. -/
theorem maxt_min_witness :
    registerMaxt [120, 95, 200] = some 95 ∧
    ∃ m, registerMaxt [120, 95, 200] = some m ∧ m ∈ [120, 95, 200] ∧
      ∀ c ∈ [120, 95, 200], m ≤ c :=
  ⟨rfl, maxt_min_of_pos_counts [120, 95, 200] (by decide) (by decide)⟩

end Visualizer

namespace Visualizer

/-- **C3, counterexample.** The claim "running to completion redraws
exactly `floor(maxt/s)` times" fails when the stride divides the bound:
with `maxt = 4` and stride `2` the loop `range(2, 4, 2)` performs a single
update tick, but `floor(4/2) = 2`. -/
theorem tick_count_counterexample :
    (runTicks 2 4).length = 1 ∧ (1 : Nat) ≠ 4 / 2 := by
  constructor
  · rfl
  · decide

/-- **C3, amended.** For every effective stride `s ≥ 1` the tick loop
performs its updates at cursor reference points `t = s, 2s, …` strictly
below `maxt`, and running to completion redraws exactly
`floor((maxt - 1)/s)` times (`floor(maxt/s)` when `s` does not divide
`maxt`, one fewer when it does: `range(s, maxt, s)` excludes `maxt`). -/
theorem tick_schedule_amended (s maxt : Nat) (hs : 1 ≤ s) :
    (∀ t, t ∈ runTicks s maxt ↔ (∃ k, 1 ≤ k ∧ t = k * s) ∧ t < maxt) ∧
    (runTicks s maxt).length = (maxt - 1) / s :=
  ⟨fun t => mem_runTicks s maxt t hs, runTicks_length s maxt hs⟩

/-- Witness for C3 at the spec's end-to-end example: a 4-timestep source
with stride 3 ticks exactly once, at reference point `t = 3`. -/
theorem tick_schedule_witness :
    runTicks 3 4 = [3] ∧ (runTicks 3 4).length = (4 - 1) / 3 ∧
    (3 ∈ runTicks 3 4 ↔ (∃ k, 1 ≤ k ∧ 3 = k * 3) ∧ 3 < 4) :=
  ⟨rfl, (tick_schedule_amended 3 4 (by decide)).2,
    (tick_schedule_amended 3 4 (by decide)).1 3⟩

/-- **C4, counterexample.** The claim "the stride is replaced by
`maxt - 1`, and the run then performs exactly one update tick" fails at
`maxt = 1`: the replaced stride is `1 - 1 = 0`, and the tick loop's
`range(0, 1, 0)` raises `ValueError` before any tick — the run performs
zero update ticks, not one. -/
theorem zero_stride_counterexample :
    effectiveStride 0 1 = 0 ∧
    runUpdates 0 1 = .error "ValueError" ∧
    ¬∃ l, runUpdates 0 1 = .ok l ∧ l.length = 1 := by
  refine ⟨rfl, rfl, ?_⟩
  rintro ⟨l, hl, -⟩
  rw [show runUpdates 0 1 = Except.error "ValueError" from rfl] at hl
  exact Except.noConfusion hl

/-- **C4, amended.** If the configured update stride is 0 (or unset —
both falsy) when `run()` starts, it is replaced by `maxt - 1`; when
`maxt ≥ 2` the run then performs exactly one update tick, whose cursor
`self._t = stride + 1` equals `maxt` — while at `maxt = 1` the replaced
stride is `0` and the tick loop's `range(0, 1, 0)` raises `ValueError`,
performing no tick. -/
theorem zero_stride_single_tick (maxt : Nat) (h : 1 ≤ maxt) :
    effectiveStride 0 maxt = maxt - 1 ∧
    (2 ≤ maxt →
      runUpdates 0 maxt = .ok (runTicks (maxt - 1) maxt) ∧
      (runTicks (maxt - 1) maxt).length = 1 ∧
      initialCursor (effectiveStride 0 maxt) = maxt) ∧
    (maxt = 1 → runUpdates 0 maxt = .error "ValueError") := by
  have hst : effectiveStride 0 maxt = maxt - 1 := rfl
  refine ⟨hst, ?_, ?_⟩
  · intro h2
    refine ⟨?_, ?_, ?_⟩
    · rw [runUpdates, hst, pyRangeChecked, if_neg (by omega)]
      rfl
    · rw [runTicks_length (maxt - 1) maxt (by omega)]
      exact Nat.div_self (by omega)
    · rw [initialCursor, hst]
      omega
  · intro h1
    subst h1
    rfl

/-- Witness for C4's amended claim at the spec's example and at the
degenerate case: `update_interval = 0` and `maxt = 100` give effective
stride 99 and exactly one tick, at cursor `t = 100`; `maxt = 1` raises
`ValueError` with no tick. -/
theorem zero_stride_single_tick_witness :
    effectiveStride 0 100 = 99 ∧
    runUpdates 0 100 = .ok (runTicks 99 100) ∧
    (runTicks 99 100).length = 1 ∧
    initialCursor (effectiveStride 0 100) = 100 ∧
    runUpdates 0 1 = .error "ValueError" := by
  obtain ⟨h1, h2, h3⟩ := zero_stride_single_tick 100 (by decide)
  obtain ⟨h4, h5, h6⟩ := h2 (by decide)
  exact ⟨h1, h4, h5, h6, (zero_stride_single_tick 1 (by decide)).2.2 rfl⟩

theorem wfRun_cursor (s : Nat) (d : Nat → Int) (k : Nat) :
    (wfRun s d k).2 = k * s + s + 1 := by
  induction k with
  | zero => simp [wfRun, wfInit]
  | succ k ih =>
    rcases hw : wfRun s d k with ⟨buf, t⟩
    rw [hw] at ih
    have hstep : wfRun s d (k + 1) = (buf ++ wfWindow s t d, t + s) := by
      rw [show wfRun s d (k + 1) = wfTick s d (wfRun s d k) from rfl, hw]
      rfl
    rw [hstep]
    have ht : t = k * s + s + 1 := ih
    have hmul : (k + 1) * s = k * s + s := by ring
    simp only [hmul]
    generalize k * s = x at ht ⊢
    omega

theorem wfWindow_length (s t : Nat) (d : Nat → Int) (h : s ≤ t) :
    (wfWindow s t d).length = s := by
  simp only [wfWindow, List.length_map, List.length_range]
  omega

theorem wfRun_buf_length (s : Nat) (d : Nat → Int) (k : Nat) :
    (wfRun s d k).1.length = k * s + 1 := by
  induction k with
  | zero => simp [wfRun, wfInit]
  | succ k ih =>
    rcases hw : wfRun s d k with ⟨buf, t⟩
    have hc := wfRun_cursor s d k
    rw [hw] at ih hc
    have hstep : wfRun s d (k + 1) = (buf ++ wfWindow s t d, t + s) := by
      rw [show wfRun s d (k + 1) = wfTick s d (wfRun s d k) from rfl, hw]
      rfl
    rw [hstep]
    have ht : t = k * s + s + 1 := hc
    have hwin : (wfWindow s t d).length = s := wfWindow_length s t d (by omega)
    have hbuf : buf.length = k * s + 1 := ih
    simp only [List.length_append, hbuf, hwin]
    have hmul : (k + 1) * s = k * s + s := by ring
    rw [hmul]
    generalize k * s = x
    omega

/-- **C5, counterexample.** The claim "after `k` ticks with stride `s` the
buffer's length equals `k*s`" fails: `_initialize` seeds the buffer with
the `t = 0` sample before any tick, so one tick at stride 2 leaves 3
samples, not 2. -/
theorem waveform_buffer_counterexample :
    (wfRun 2 (fun _ => (0 : Int)) 1).1.length = 3 ∧ (3 : Nat) ≠ 1 * 2 := by
  constructor
  · rfl
  · decide

/-- **C5, amended.** For every single-channel waveform panel, each tick
appends exactly the current window's values (`s` samples — one per
timestep advanced — whenever the cursor satisfies `s ≤ t`, which every
reachable cursor does) to the rolling buffer, so after `k` ticks with
stride `s` the buffer's length equals `k*s + 1`: the `k*s` appended
samples plus the `t = 0` sample stored at initialization. -/
theorem waveform_buffer_amended (s : Nat) (d : Nat → Int) (k : Nat) :
    (wfRun s d k).1.length = k * s + 1 ∧
    (∀ buf t, wfTick s d (buf, t) = (buf ++ wfWindow s t d, t + s)) ∧
    (∀ t, s ≤ t → (wfWindow s t d).length = s) :=
  ⟨wfRun_buf_length s d k, fun _ _ => rfl, fun t ht => wfWindow_length s t d ht⟩

/-- Witness for C5: after 3 ticks at stride 2 the buffer holds
`3*2 + 1 = 7` samples, and a tick at cursor 5 appends a window of
exactly 2 samples. -/
theorem waveform_buffer_witness :
    (wfRun 2 (fun _ => (0 : Int)) 3).1.length = 3 * 2 + 1 ∧
    (wfWindow 2 5 (fun _ => (0 : Int))).length = 2 :=
  ⟨(waveform_buffer_amended 2 (fun _ => 0) 3).1,
    (waveform_buffer_amended 2 (fun _ => 0) 0).2.2 5 (by decide)⟩

end Visualizer

namespace Visualizer

/-- **C6.** A panel whose requested plot kind is vector-field (`'quiver'`)
or hue-magnitude (`'hsv'`) passes `_initialize`'s configuration check iff
exactly two channel-index groups are supplied (anything else trips the
`assert`, a `ConfigurationError`), and a panel whose kind string is not
one of the recognized kinds always fails (`ValueError('Plot type not
supported')`). -/
theorem plot_kind_id_group_check (kind : String) (n : Nat) :
    ((kind = "quiver" ∨ kind = "hsv") → (isOkB (resolveType kind n) = true ↔ n = 2)) ∧
    (kind ∉ recognizedKinds → isOkB (resolveType kind n) = false) := by
  constructor
  · rintro (rfl | rfl) <;>
      (by_cases hn : n = 2 <;> simp [resolveType, hn, isOkB])
  · intro h
    simp only [recognizedKinds, List.mem_cons, List.not_mem_nil, or_false,
      not_or] at h
    obtain ⟨h1, h2, h3, h4, h5, h6, h7⟩ := h
    simp [resolveType, h1, h2, h3, h4, h5, h6, h7, isOkB]

/-- Witness for C6: a hue-magnitude (`'hsv'`) panel with a single
channel-index group fails, as does an unrecognized kind string. -/
theorem plot_kind_id_group_check_witness :
    isOkB (resolveType "hsv" 1) = false ∧ isOkB (resolveType "contour" 2) = false := by
  constructor
  · have h := (plot_kind_id_group_check "hsv" 1).1 (Or.inr rfl)
    cases hb : isOkB (resolveType "hsv" 1) with
    | false => rfl
    | true => exact absurd (h.mp hb) (by decide)
  · exact (plot_kind_id_group_check "contour" 2).2 (by decide)

/-- **C7.** The kind-inference rule of `_initialize` (visualizer.py:253)
tests `startswith('input') and not spiking`, where the spec (and the
older implementation `utils/visualizer.py:175`, which tests
`startswith('input') or not spiking`) requires *or*: at a measured source
(`'lamina'`) whose first selected node is not flagged spiking, the code
yields event-raster (4) while the specified rule yields
single-channel-image (2); moreover, under `and` a graph-less input source
crashes on the node lookup (`KeyError`) on the very path the spec
defaults to image — evidence that `and` is a slip for `or`. -/
theorem default_kind_code_vs_spec :
    defaultType "lamina" (some (fun _ => false)) 0 = .ok 4 ∧
    specDefaultKind false false = 2 ∧
    defaultType "input_0" none 0 = .error "KeyError" ∧
    specDefaultKind true false = 2 :=
  ⟨rfl, rfl, rfl, rfl⟩

theorem ceilSqrt_pos (n : Nat) (hn : 1 ≤ n) : 1 ≤ ceilSqrt n := by
  rw [ceilSqrt]
  split
  · next h =>
    rcases Nat.eq_zero_or_pos (Nat.sqrt n) with h0 | h0
    · rw [h0] at h
      omega
    · exact h0
  · omega

theorem ceilSqrt_spec (n : Nat) :
    n ≤ ceilSqrt n * ceilSqrt n ∧ ∀ m, n ≤ m * m → ceilSqrt n ≤ m := by
  constructor
  · rw [ceilSqrt]
    split
    · next h => omega
    · next h => exact le_of_lt (Nat.lt_succ_sqrt n)
  · intro m hm
    have hsm : Nat.sqrt n ≤ m := by
      have h1 := Nat.sqrt_le_sqrt hm
      rwa [Nat.sqrt_eq] at h1
    rw [ceilSqrt]
    split
    · next h => exact hsm
    · next hne =>
      rcases Nat.lt_or_ge (Nat.sqrt n) m with h | h
      · omega
      · exfalso
        have heq : m = Nat.sqrt n := le_antisymm h hsm
        exact hne (le_antisymm (Nat.sqrt_le n) (by rw [← heq]; exact hm))

theorem ceilDiv_spec (n r : Nat) (hn : 1 ≤ n) (hr : 1 ≤ r) :
    n ≤ (n + r - 1) / r * r ∧ ∀ m, n ≤ m * r → (n + r - 1) / r ≤ m := by
  constructor
  · have hdm := Nat.div_add_mod (n + r - 1) r
    have hlt : (n + r - 1) % r < r := Nat.mod_lt _ hr
    rw [Nat.mul_comm]
    generalize hq : r * ((n + r - 1) / r) = x at hdm
    omega
  · intro m hm
    have hlt : n + r - 1 < (m + 1) * r := by
      have h2 : (m + 1) * r = m * r + r := by ring
      rw [h2]
      generalize m * r = x at hm
      omega
    have := (Nat.div_lt_iff_lt_mul hr).mpr hlt
    omega

/-- **C8.** For every 2-D-reshape panel kind with no explicit shape and
`n ≥ 1` selected channels, the inferred shape is
`(ceil(sqrt(n)), ceil(n / ceil(sqrt(n))))`: the first component is the
least `r` with `n ≤ r·r` and the second is the least `c` with
`n ≤ c·r`. -/
theorem shape_inference_ceil (n : Nat) (hn : 1 ≤ n) :
    (n ≤ (inferShape n).1 * (inferShape n).1 ∧
      ∀ m, n ≤ m * m → (inferShape n).1 ≤ m) ∧
    (n ≤ (inferShape n).2 * (inferShape n).1 ∧
      ∀ m, n ≤ m * (inferShape n).1 → (inferShape n).2 ≤ m) := by
  constructor
  · exact ceilSqrt_spec n
  · exact ceilDiv_spec n (ceilSqrt n) hn (ceilSqrt_pos n hn)

/-- Witness for C8 at the spec's example: `n = 10` yields shape `(4, 3)`
(`ceil(sqrt 10) = 4`, `ceil(10/4) = 3`), and that shape satisfies the
minimality properties. -/
theorem shape_inference_witness :
    inferShape 10 = (4, 3) ∧
    10 ≤ (inferShape 10).1 * (inferShape 10).1 ∧
    10 ≤ (inferShape 10).2 * (inferShape 10).1 := by
  have hs : Nat.sqrt 10 = 3 := (Nat.eq_sqrt.mpr (by decide)).symm
  have h10 : inferShape 10 = (4, 3) := by
    simp [inferShape, ceilSqrt, hs]
  exact ⟨h10, (shape_inference_ceil 10 (by decide)).1.1,
    (shape_inference_ceil 10 (by decide)).2.1⟩

end Visualizer

namespace Visualizer

theorem alistLookup_mem (m : List (Int × Nat)) (id : Int) (idx : Nat)
    (h : alistLookup m id = some idx) : (id, idx) ∈ m := by
  induction m with
  | nil => simp [alistLookup] at h
  | cons p rest ih =>
    rcases p with ⟨k, v⟩
    by_cases hk : k = id
    · subst hk
      simp [alistLookup] at h
      subst h
      exact List.mem_cons_self _ _
    · simp only [alistLookup, if_neg hk] at h
      exact List.mem_cons_of_mem _ (ih h)

theorem rasterLoop_ok (m : List (Int × Nat)) (data : List (List Int)) (s t : Nat)
    (hm : ∀ p ∈ m, p.2 < data.length) :
    ∀ l, isOkB (rasterLoop m data s t l) = true := by
  intro l
  induction l with
  | nil => rfl
  | cons ji rest ih =>
    rcases ji with ⟨j, id⟩
    simp only [rasterLoop]
    cases hl : alistLookup m id with
    | none => exact ih
    | some idx =>
      have hidx : idx < data.length := hm (id, idx) (alistLookup_mem m id idx hl)
      cases hd : data[idx]? with
      | none =>
        exfalso
        rw [List.getElem?_eq_none_iff] at hd
        omega
      | some row =>
        cases hr : rasterLoop m data s t rest with
        | error e =>
          rw [hr] at ih
          exact absurd ih (by simp [isOkB])
        | ok tail => simp [isOkB, hd]

/-- **C9, counterexample.** The claim "a selected identifier absent from
the IndexMap during an event-raster recompute propagates as a fatal
error; no such failure is silently skipped" is false: with the IndexMap of
spiking ids `{5, 2, 9}`, a raster tick over the unresolvable selected id
`7` succeeds with no marks — the `try/except: continue` at
visualizer.py:451-454 silently skips it. -/
theorem raster_skip_counterexample :
    alistLookup (idToDataIdx [5, 2, 9]) 7 = none ∧
    rasterUpdate (idToDataIdx [5, 2, 9]) exSpikes 1 2 [7] = .ok [] ∧
    isOkB (rasterUpdate (idToDataIdx [5, 2, 9]) exSpikes 1 2 [7]) = true := by
  refine ⟨rfl, rfl, rfl⟩

/-- **C9, amended.** Failures outside the configuration/encoder/style
paths propagate as fatal errors — an out-of-range channel index in a
tick's fancy-index recompute (image/quiver/hsv) always aborts — *except*
that the event-raster recompute silently skips any selected identifier
absent from the IndexMap: a raster tick never fails as long as every
index the map can resolve is a valid data row. -/
theorem error_propagation_amended :
    (∀ (m : List (Int × Nat)) (data : List (List Int)) (s t : Nat)
        (ids : List Int), (∀ p ∈ m, p.2 < data.length) →
        isOkB (rasterUpdate m data s t ids) = true) ∧
    (∀ (data : List (List Int)) (ids : List Nat) (t : Nat),
        (∃ i ∈ ids, data.length ≤ i) → isOkB (npFancyCol data ids t) = false) := by
  constructor
  · intro m data s t ids hm
    exact rasterLoop_ok m data s t hm _
  · intro data ids t h
    induction ids with
    | nil => simp at h
    | cons i rest ih =>
      simp only [npFancyCol]
      cases hd : data[i]? with
      | none => simp [isOkB]
      | some row =>
        have hi : i < data.length := by
          by_contra hge
          have hnone : data[i]? = none :=
            List.getElem?_eq_none_iff.mpr (Nat.le_of_not_lt hge)
          rw [hnone] at hd
          exact Option.noConfusion hd
        have hrest : ∃ x ∈ rest, data.length ≤ x := by
          rcases h with ⟨x, hx, hlen⟩
          rcases List.mem_cons.mp hx with rfl | hxr
          · omega
          · exact ⟨x, hxr, hlen⟩
        cases ht : row[t]? with
        | none => simp [isOkB, ht]
        | some v =>
          have hih := ih hrest
          cases hrec : npFancyCol data rest t with
          | error e => simp [isOkB, ht, hrec]
          | ok vs =>
            rw [hrec] at hih
            exact absurd hih (by simp [isOkB])

/-- Witness for C9: a raster tick over ids `{7, 2}` (7 unresolvable,
2 resolvable) succeeds against the 3-row example data, while an image
recompute reading row 5 of the same 3-row data fails fatally. -/
theorem error_propagation_witness :
    isOkB (rasterUpdate (idToDataIdx [5, 2, 9]) exSpikes 1 2 [7, 2]) = true ∧
    isOkB (npFancyCol exSpikes [5] 0) = false :=
  ⟨error_propagation_amended.1 (idToDataIdx [5, 2, 9]) exSpikes 1 2 [7, 2]
      (by decide),
    error_propagation_amended.2 exSpikes [5] 0 ⟨5, by decide, by decide⟩⟩

theorem cLookup_cSet (c : Config) (key k : String) (v : CVal) :
    cLookup (cSet c key v) k = if k = key then some v else cLookup c k := by
  induction c with
  | nil =>
    simp only [cSet, cLookup]
    by_cases h : k = key
    · subst h
      simp
    · rw [if_neg (fun hk => h hk.symm), if_neg h]
  | cons p rest ih =>
    rcases p with ⟨k', w⟩
    by_cases h1 : k' = key
    · subst h1
      by_cases h2 : k' = k
      · subst h2
        simp [cSet, cLookup]
      · have h2' : ¬k = k' := fun hk => h2 hk.symm
        simp [cSet, cLookup, h2, h2']
    · by_cases h2 : k' = k
      · subst h2
        simp [cSet, cLookup, h1]
      · simp [cSet, cLookup, h1, h2, ih]

/-- **C10.** `add_plot` never mutates the caller-supplied config dict: the
caller's dict is returned unchanged, and the stored copy agrees with the
caller's dict on every key other than the resolved `'ids'` groups and the
derived default `'title'`, which are written only into the copy. -/
theorem add_plot_preserves_config (config_dict : Config) (LPU : String)
    (names : List String) (shift : Int) (numRows : Nat)
    (nodeNames : List String) :
    (addPlot config_dict LPU names shift numRows nodeNames).1 = config_dict ∧
    ∀ k, k ≠ "ids" → k ≠ "title" →
      cLookup (addPlot config_dict LPU names shift numRows nodeNames).2 k =
        cLookup config_dict k := by
  refine ⟨rfl, ?_⟩
  intro k h1 h2
  simp only [addPlot]
  split_ifs <;> simp [cLookup_cSet, h1, h2]

/-- Witness for C10: adding an input-source panel from a config holding
only a `'type'` key leaves the caller's dict intact, and the stored copy
still maps `'type'` to the original value. -/
theorem add_plot_preserves_config_witness :
    (addPlot [("type", CVal.vStr "image")] "input_vision" [""] 0 2 []).1 =
      [("type", CVal.vStr "image")] ∧
    cLookup (addPlot [("type", CVal.vStr "image")] "input_vision" [""] 0 2 []).2
      "type" = some (CVal.vStr "image") := by
  refine ⟨(add_plot_preserves_config _ _ _ _ _ _).1, ?_⟩
  rw [(add_plot_preserves_config [("type", CVal.vStr "image")] "input_vision"
    [""] 0 2 []).2 "type" (by decide) (by decide)]
  rfl

end Visualizer
